import Mathlib

/-!
Shallow embedding of the `astream` package (closeable_queue.py, stream.py,
utils.py): a closeable asyncio queue with a closed/exhausted lifecycle, and
the Stream pipeline built on it.  Machine state is explicit; suspended
`put`/`get` callers are modelled as waiter futures carried in the queue
state, as in `asyncio.Queue._putters` / `_getters`.
-/

namespace AStream

/-- Exceptions that the embedded code can raise: `QueueClosed`,
`QueueExhausted`, `asyncio.QueueFull`, `asyncio.QueueEmpty`,
`ValueError` (from `task_done`), `asyncio.InvalidStateError` (from
`Future.set_exception` on a done future), `TypeError` (bad call binding),
`CancelledError`, and `RuntimeError` (from `Stream.start`). -/
inductive PyErr where
  | closedErr
  | exhaustedErr
  | fullErr
  | emptyErr
  | valueError
  | invalidState
  | typeError
  | cancelledErr
  | runtimeError
  deriving DecidableEq, Repr

/-- State of an `asyncio.Future` waiter as the queue code observes it:
still pending, done by `cancel()`, done by `set_result(None)`
(`_wakeup_next`), or done by `set_exception(QueueClosed())` (`close`). -/
inductive FutState where
  | pending
  | cancelledFut
  | doneOk
  | doneClosedExc
  deriving DecidableEq, Repr

/-- State of a `CloseableQueue`.  `items` is the FIFO backing store
(head is next out), `unfinished` is `asyncio.Queue._unfinished_tasks`,
`closed`/`exhausted` are the two `asyncio.Event`s, `putters` are the
suspended `put` calls (waiter future state plus the item each carries)
and `getters` the suspended `get` calls, in arrival order. -/
structure CloseableQueue (α : Type) where
  maxsize : Nat
  items : List α
  unfinished : Nat
  closed : Bool
  exhausted : Bool
  putters : List (FutState × α)
  getters : List FutState
  deriving DecidableEq, Repr

/-- A freshly constructed `CloseableQueue(maxsize)`. -/
def emptyQueue (α : Type) (maxsize : Nat) : CloseableQueue α :=
  { maxsize := maxsize, items := [], unfinished := 0, closed := false,
    exhausted := false, putters := [], getters := [] }

/-- The `asyncio.Queue._finished` event is set exactly when
`_unfinished_tasks == 0` (it starts set, `put_nowait` clears it while
incrementing the counter, `task_done` sets it when the counter hits 0). -/
def finishedSet {α : Type} (q : CloseableQueue α) : Bool :=
  q.unfinished == 0

/-- The `asyncio.Queue.full()` check: never full when `maxsize <= 0`. -/
def isFull {α : Type} (q : CloseableQueue α) : Bool :=
  0 < q.maxsize && q.maxsize ≤ q.items.length

/-- The effect of `Future.cancel()` on a waiter: a pending future becomes
cancelled; a done future is unaffected (`cancel` returns False). -/
def cancelFut : FutState → FutState
  | .pending => .cancelledFut
  | s => s

/-- The effect of `asyncio.Queue._wakeup_next(waiters)`: pop waiters from
the left, discarding done ones, until a pending one is found; that one is
resolved with `set_result(None)` and leaves the list (its coroutine is now
scheduled to resume). -/
def wakeupNextG : List FutState → List FutState
  | [] => []
  | .pending :: rest => rest
  | _ :: rest => wakeupNextG rest

/-- The effect of `_wakeup_next(self._putters)`; putter waiters also carry
the item their suspended `put` call holds. -/
def wakeupNextP {α : Type} : List (FutState × α) → List (FutState × α)
  | [] => []
  | (.pending, _) :: rest => rest
  | _ :: rest => wakeupNextP rest

/-- The body of `CloseableQueue._set_exhausted`: set the `_exhausted`
event, then `cancel()` every getter waiter (they stay in `_getters` until
their coroutines resume and remove themselves). -/
def setExhausted {α : Type} (q : CloseableQueue α) : CloseableQueue α :=
  { q with exhausted := true, getters := q.getters.map cancelFut }

/-- The `for putter in self._putters: putter.set_exception(QueueClosed())`
loop in `CloseableQueue.close`: `set_exception` on a pending future
resolves it with the exception, but on an already-done future it raises
`asyncio.InvalidStateError`. -/
def resolvePutters {α : Type} :
    List (FutState × α) → Except PyErr (List (FutState × α))
  | [] => .ok []
  | (.pending, x) :: rest => do
      let rest' ← resolvePutters rest
      .ok ((FutState.doneClosedExc, x) :: rest')
  | (_, _) :: _ => .error .invalidState

/-- The body of `CloseableQueue.close`: set `_closed`, resolve every
putter waiter with `QueueClosed`, and if `_finished` is set (no
unacknowledged items) transition to exhausted. -/
def close {α : Type} (q : CloseableQueue α) : Except PyErr (CloseableQueue α) := do
  let q1 : CloseableQueue α := { q with closed := true }
  let ps ← resolvePutters q1.putters
  let q2 : CloseableQueue α := { q1 with putters := ps }
  if finishedSet q2 then .ok (setExhausted q2) else .ok q2

/-- The body of `CloseableQueue.put_nowait`: raise `QueueClosed` when
closed, else `asyncio.Queue.put_nowait`: raise `QueueFull` when full,
else append the item, bump `_unfinished_tasks` (clearing `_finished`) and
wake the next getter waiter. -/
def put_nowait {α : Type} (q : CloseableQueue α) (x : α) :
    Except PyErr (CloseableQueue α) :=
  if q.closed then .error .closedErr
  else if isFull q then .error .fullErr
  else .ok { q with items := q.items ++ [x], unfinished := q.unfinished + 1,
                    getters := wakeupNextG q.getters }

/-- The body of `CloseableQueue.get_nowait`: raise `QueueExhausted` when
exhausted, else `asyncio.Queue.get_nowait`: raise `QueueEmpty` when
empty, else pop the head item and wake the next putter waiter. -/
def get_nowait {α : Type} (q : CloseableQueue α) :
    Except PyErr (α × CloseableQueue α) :=
  if q.exhausted then .error .exhaustedErr
  else
    match q.items with
    | [] => .error .emptyErr
    | x :: rest =>
        .ok (x, { q with items := rest, putters := wakeupNextP q.putters })

/-- The body of `task_done`: `asyncio.Queue.task_done` raises `ValueError`
when `_unfinished_tasks` is already 0, otherwise decrements it; then
`CloseableQueue.task_done` checks `is_closed and _finished.is_set()` and
calls `_set_exhausted` when both hold. -/
def task_done {α : Type} (q : CloseableQueue α) :
    Except PyErr (CloseableQueue α) :=
  if q.unfinished = 0 then .error .valueError
  else
    let q' : CloseableQueue α := { q with unfinished := q.unfinished - 1 }
    if q'.closed ∧ finishedSet q' then .ok (setExhausted q') else .ok q'

/-- Outcome of one call to the coroutine `CloseableQueue.put` up to its
first suspension: fail with `QueueClosed` if closed at entry; otherwise
`asyncio.Queue.put` loops `while self.full()`, parking a pending waiter in
`_putters` when full, and calls `self.put_nowait(item)` (dynamic dispatch
back into `CloseableQueue.put_nowait`) when not. -/
inductive PutCallResult (α : Type) where
  | failed (e : PyErr)
  | enqueued (q : CloseableQueue α)
  | suspended (q : CloseableQueue α)
  deriving DecidableEq, Repr

/-- The body of `CloseableQueue.put` (one step, up to suspension). -/
def putCall {α : Type} (q : CloseableQueue α) (x : α) : PutCallResult α :=
  if q.closed then .failed .closedErr
  else if isFull q then
    .suspended { q with putters := q.putters ++ [(FutState.pending, x)] }
  else
    match put_nowait q x with
    | .ok q' => .enqueued q'
    | .error e => .failed e

/-- How a `put` caller suspended on a waiter future observes that future
being resolved: `set_exception(QueueClosed())` makes `await putter` raise
`QueueClosed`, which `asyncio.Queue.put` re-raises to the caller;
cancellation raises `CancelledError`; `set_result` resumes the loop. -/
def putterResume (s : FutState) : Option PyErr :=
  match s with
  | .doneClosedExc => some .closedErr
  | .cancelledFut => some .cancelledErr
  | _ => none

/-- Outcome of one call to the coroutine `CloseableQueue.get` up to its
first suspension: fail with `QueueExhausted` if exhausted at entry;
otherwise `asyncio.Queue.get` parks a pending waiter in `_getters` when
empty and calls `self.get_nowait()` when not. -/
inductive GetCallResult (α : Type) where
  | failed (e : PyErr)
  | got (x : α) (q : CloseableQueue α)
  | suspended (q : CloseableQueue α)
  deriving DecidableEq, Repr

/-- The body of `CloseableQueue.get` (one step, up to suspension). -/
def getCall {α : Type} (q : CloseableQueue α) : GetCallResult α :=
  if q.exhausted then .failed .exhaustedErr
  else
    match q.items with
    | [] => .suspended { q with getters := q.getters ++ [FutState.pending] }
    | _ :: _ =>
        match get_nowait q with
        | .ok (x, q') => .got x q'
        | .error e => .failed e

/-- The `except CancelledError` handler in `CloseableQueue.get`: a
suspended `get` whose waiter was cancelled re-raises `QueueExhausted`
when the queue is exhausted at resume time, and the bare `CancelledError`
otherwise. -/
def getResumeOnCancel {α : Type} (q : CloseableQueue α) : PyErr :=
  if q.exhausted then .exhaustedErr else .cancelledErr

/-- Outcome of one call to `CloseableQueue.__anext__` (also the body of
`Stream.__anext__` on the stage's owned queue): `await self.get()`, then
`self.task_done()`, then return the item; `QueueExhausted` becomes
`StopAsyncIteration`. -/
inductive AnextResult (α : Type) where
  | item (x : α) (q : CloseableQueue α)
  | stopIteration
  | blocked (q : CloseableQueue α)
  | errored (e : PyErr)
  deriving DecidableEq, Repr

/-- The body of `CloseableQueue.__anext__` (one step, up to suspension). -/
def anext {α : Type} (q : CloseableQueue α) : AnextResult α :=
  match getCall q with
  | .failed .exhaustedErr => .stopIteration
  | .failed e => .errored e
  | .suspended q' => .blocked q'
  | .got x q' =>
      match task_done q' with
      | .ok q'' => .item x q''
      | .error e => .errored e

/-- Iterated consumption through the iteration protocol (`async for` over
the queue or the Stream): repeat `__anext__` until it does not produce an
item, collecting the items in order; `fuel` bounds the number of pulls. -/
def drainFuel {α : Type} : Nat → CloseableQueue α → List α × CloseableQueue α
  | 0, q => ([], q)
  | n + 1, q =>
      match anext q with
      | .item x q' =>
          let r := drainFuel n q'
          (x :: r.1, r.2)
      | _ => ([], q)

/-- Enqueue a whole list through `put_nowait`, left to right. -/
def enqueueAll {α : Type} (q : CloseableQueue α) :
    List α → Except PyErr (CloseableQueue α)
  | [] => .ok q
  | x :: rest => do
      let q' ← put_nowait q x
      enqueueAll q' rest

/-- Put every item of `S` into a fresh unbounded queue and then `close` it
(the producer side of the round-trip scenario, and what `Stream._feed`
does for a finite source). -/
def feedAll {α : Type} (S : List α) : Except PyErr (CloseableQueue α) := do
  let q ← enqueueAll (emptyQueue α 0) S
  close q

/-- Queue operations a task can invoke after some point in time, used to
state monotonicity of the `_exhausted` event (no code path ever clears
it: `_exhausted.clear()` does not occur in the source). An operation that
raises leaves the state as modelled. -/
inductive QOp (α : Type) where
  | opPutNowait (x : α)
  | opGetNowait
  | opTaskDone
  | opClose
  deriving DecidableEq, Repr

/-- Apply one queue operation, keeping the prior state when it raises. -/
def applyOp {α : Type} (q : CloseableQueue α) : QOp α → CloseableQueue α
  | .opPutNowait x =>
      match put_nowait q x with
      | .ok q' => q'
      | .error _ => q
  | .opGetNowait =>
      match get_nowait q with
      | .ok (_, q') => q'
      | .error _ => q
  | .opTaskDone =>
      match task_done q with
      | .ok q' => q'
      | .error _ => q
  | .opClose =>
      match close q with
      | .ok q' => q'
      | .error _ => q

/-- Apply a sequence of queue operations left to right. -/
def applyOps {α : Type} (q : CloseableQueue α) (ops : List (QOp α)) :
    CloseableQueue α :=
  ops.foldl applyOp q

/-- Apply `task_done` (acknowledgment) `n` times. -/
def taskDoneIter {α : Type} : Nat → CloseableQueue α → Except PyErr (CloseableQueue α)
  | 0, q => .ok q
  | n + 1, q => do
      let q' ← task_done q
      taskDoneIter n q'

/-- One event produced by the upstream source a Feeder pulls from: it
either yields an item or raises an exception out of its `__anext__`; the
end of the event list is the source's own end (`StopAsyncIteration`). -/
inductive UpEvent (α : Type) where
  | item (x : α)
  | raiseErr
  deriving DecidableEq, Repr

/-- Result of running the Feeder body `Stream._feed` over its upstream:
it either ran to the end of the source and executed `self._out_q.close()`,
stalled on a full queue, or died on an uncaught exception (from the
upstream pull or from `put`) with the queue left as it was. -/
inductive FeedResult (α : Type) where
  | completed (q : CloseableQueue α)
  | blockedFull (q : CloseableQueue α) (pending : List (UpEvent α))
  | crashed (q : CloseableQueue α)
  deriving DecidableEq, Repr

/-- The body of `Stream._feed`: `async for item in async_iterator: await
self._out_q.put(item)`, then `self._out_q.close()`.  There is no
try/except: an exception from the pull or the put propagates and kills
the task, and the `close()` on the last line is then never reached. -/
def feed {α : Type} (q : CloseableQueue α) : List (UpEvent α) → FeedResult α
  | [] =>
      match close q with
      | .ok q' => .completed q'
      | .error _ => .crashed q
  | .raiseErr :: _ => .crashed q
  | .item x :: rest =>
      match putCall q x with
      | .enqueued q' => feed q' rest
      | .suspended q' => .blockedFull q' rest
      | .failed _ => .crashed q

/-- The second loop of `_aflatmap` in stream.py (the branch taken when
`fn` returns a plain iterable): `async for item in iterable: for subitem
in await _async_fn(item): yield subitem` — each upstream item's expansion
is iterated to its end before the next upstream item is pulled.  The
async-generator branch has the same nested-loop shape. -/
def aflatmapGen {α β : Type} (fn : α → List β) : List α → List β
  | [] => []
  | x :: rest => fn x ++ aflatmapGen fn rest

/-- Modelled from the spec: input-major, expansion-minor ordering is the
concatenation of the per-item expansions taken in upstream order.  This
is the spec-side reference that `aflatmapGen` is compared against. -/
def flatMapSpecOrder {α β : Type} (fn : α → List β) (xs : List α) : List β :=
  (xs.map fn).flatten

/-- The loop of `_amap` in stream.py: `async for item in iterable: yield
await _async_fn(item)`. -/
def amapGen {α β : Type} (fn : α → β) : List α → List β
  | [] => []
  | x :: rest => fn x :: amapGen fn rest

/-- The sequence of items `iter_to_aiter` yields for a finite input.
The worker thread (`run_iterator`) appends items from the iterator into
the shared `result` buffer until its time slice ends; the generator then
yields the buffer in order and clears it; a slice that exhausts the
iterator raises, and the remaining buffer is yielded before returning.
`sched` gives the number of further items each time slice manages to pull
beyond the first (a slice is time-bounded in the source; slices that pull
no items leave everything unchanged and are omitted); once `sched` runs
out the remaining slices are modelled as running to the iterator's end. -/
def iterToKAiter {α : Type} : List Nat → List α → List α
  | [], xs => xs
  | n :: sched, xs =>
      if xs.length ≤ n + 1 then xs
      else xs.take (n + 1) ++ iterToKAiter sched (xs.drop (n + 1))

/-- Keyword parameter names `iter_to_aiter` accepts: its signature is
`iter_to_aiter(iterable, /, target_dt=0.0005)`, so `iterable` is
positional-only and `target_dt` is the only keyword. -/
def iterToKAiterKeywords : List String := ["target_dt"]

/-- A Python call to `iter_to_aiter` with positional argument `xs` and the
keyword names `kws`: argument binding raises `TypeError` at call time
if any keyword is not a parameter name (this happens immediately when an
async generator function is called, before any iteration). -/
def callIterToKAiter {α : Type} (xs : List α) (sched : List Nat)
    (kws : List String) : Except PyErr (List α) :=
  if kws.all (fun k => iterToKAiterKeywords.contains k) then
    .ok (iterToKAiter sched xs)
  else .error .typeError

/-- An argument to `ensure_async_iterator`: either a plain synchronous
iterable or an already-asynchronous iterable, each with its item
sequence. -/
inductive MaybeAsyncIterable (α : Type) where
  | syncIt (xs : List α)
  | asyncIt (xs : List α)
  deriving DecidableEq, Repr

/-- The item sequence an iterable holds. -/
def MaybeAsyncIterable.itemsOf {α : Type} : MaybeAsyncIterable α → List α
  | .syncIt xs => xs
  | .asyncIt xs => xs

/-- The body of the effective `ensure_async_iterator` (the second
definition, utils.py line 182, which shadows the one at line 119): for an
`AsyncIterable` return `aiter(iterable)` (the same item sequence);
otherwise `return aiter(iter_to_aiter(iterable, to_thread=to_thread))` —
a call that passes the keyword `to_thread`, which is not a parameter of
`iter_to_aiter`. -/
def ensure_async_iterator {α : Type} (iterable : MaybeAsyncIterable α)
    (to_thread : Bool) (sched : List Nat) : Except PyErr (List α) :=
  match iterable, to_thread with
  | .asyncIt xs, _ => .ok xs
  | .syncIt xs, _ => callIterToKAiter xs sched ["to_thread"]

/-- Control state of a `Stream` instance: the `_started` event and
whether `asyncio.create_task(self._feed(...))` has been issued. -/
structure StreamCtl where
  started : Bool
  feederSpawned : Bool
  deriving DecidableEq, Repr

/-- The body of `Stream.start`: raise `RuntimeError` when `_started` is
already set, else set it and spawn the Feeder task. -/
def Stream.start (s : StreamCtl) : Except PyErr StreamCtl :=
  if s.started then .error .runtimeError
  else .ok { started := true, feederSpawned := true }

/-- The control flow of `Stream.__init__`: fresh `_started` event, then
`if start: self.start()` (on a fresh instance `start` cannot raise). -/
def Stream.init (startFlag : Bool) : StreamCtl :=
  let s : StreamCtl := { started := false, feederSpawned := false }
  if startFlag then
    match Stream.start s with
    | .ok s' => s'
    | .error _ => s
  else s

/-- The constructor call in `Stream.amap`: `Stream(_amap(fn, self),
max_out_q_size=self._out_q.maxsize, start=self._started.is_set())`. -/
def Stream.amap (parent : StreamCtl) : StreamCtl :=
  Stream.init parent.started

/-- The constructor call in `Stream.afilter` (same wiring as `amap`). -/
def Stream.afilter (parent : StreamCtl) : StreamCtl :=
  Stream.init parent.started

/-- The constructor call in `Stream.aflatmap` (same wiring as `amap`). -/
def Stream.aflatmap (parent : StreamCtl) : StreamCtl :=
  Stream.init parent.started

/-- The constructor call in `Stream.flatten`: `Stream(_aflatmap(lambda x:
x, self), max_out_q_size=self._out_q.maxsize, start=self._started.is_set())`. -/
def Stream.flatten (parent : StreamCtl) : StreamCtl :=
  Stream.init parent.started

/-- A transform operator applied in a pipeline chain. -/
inductive XformOp where
  | mapOp
  | filterOp
  | flatmapOp
  | flattenOp
  deriving DecidableEq, Repr

/-- Apply one transform operator to a stage's control state, producing
the child stage's control state. -/
def applyXform (s : StreamCtl) : XformOp → StreamCtl
  | .mapOp => Stream.amap s
  | .filterOp => Stream.afilter s
  | .flatmapOp => Stream.aflatmap s
  | .flattenOp => Stream.flatten s

/-- The body of `Stream.__anext__`: `await self._out_q.get()`, then
`self._out_q.task_done()`, return the item, translating `QueueExhausted`
into `StopAsyncIteration` — identical to `CloseableQueue.__anext__` run
on the stage's owned queue. -/
def Stream.anextQ {α : Type} (q : CloseableQueue α) : AnextResult α :=
  anext q

/-- The body of `Stream.gather`: `[it async for it in self]`, i.e. drain
the owned queue through `__anext__` until `StopAsyncIteration`; `fuel`
bounds the number of pulls. -/
def Stream.gather {α : Type} : Nat → CloseableQueue α → List α × CloseableQueue α
  | 0, q => ([], q)
  | n + 1, q =>
      match Stream.anextQ q with
      | .item x q' =>
          let r := Stream.gather n q'
          (x :: r.1, r.2)
      | _ => ([], q)

/-- The body of `Stream.acollect`: `await fn([it async for it in self])`
— the aggregate applied to the gathered sequence. -/
def Stream.acollect {α β : Type} (fn : List α → β) (fuel : Nat)
    (q : CloseableQueue α) : β × CloseableQueue α :=
  let r := Stream.gather fuel q
  (fn r.1, r.2)

/-! Helper lemmas shared by the claim theorems. -/

/-- Putting a list into an open unbounded queue with no waiters appends
the items and raises the in-flight counter by the list's length. -/
theorem enqueueAll_open {α : Type} :
    ∀ (S I : List α) (n : Nat),
      enqueueAll { maxsize := 0, items := I, unfinished := n, closed := false,
                   exhausted := false, putters := [], getters := [] } S
        = .ok { maxsize := 0, items := I ++ S, unfinished := n + S.length,
                closed := false, exhausted := false, putters := [],
                getters := [] } := by
  intro S
  induction S with
  | nil => intro I n; simp [enqueueAll]
  | cons x rest ih =>
      intro I n
      have h := ih (I ++ [x]) (n + 1)
      have harith : n + 1 + rest.length = n + (rest.length + 1) := by omega
      rw [harith] at h
      simp only [List.append_assoc, List.singleton_append] at h
      simp only [enqueueAll, put_nowait, isFull, wakeupNextG]
      simp only [List.length_cons]
      exact h

/-- Draining a closed queue whose in-flight counter equals its length
through the iteration protocol returns exactly the buffered items and
ends in the exhausted state. -/
theorem drainFuel_closed {α : Type} :
    ∀ xs : List α, xs ≠ [] →
      drainFuel xs.length
          { maxsize := 0, items := xs, unfinished := xs.length, closed := true,
            exhausted := false, putters := [], getters := [] }
        = (xs, { maxsize := 0, items := [], unfinished := 0, closed := true,
                 exhausted := true, putters := [], getters := [] }) := by
  intro xs
  induction xs with
  | nil => intro h; exact absurd rfl h
  | cons x rest ih =>
      intro _
      cases rest with
      | nil =>
          simp [drainFuel, anext, getCall, get_nowait, task_done, finishedSet,
                setExhausted, wakeupNextP, cancelFut]
      | cons y rest2 =>
          have h := ih (List.cons_ne_nil y rest2)
          have step :
              drainFuel (x :: y :: rest2).length
                  { maxsize := 0, items := x :: y :: rest2,
                    unfinished := (x :: y :: rest2).length, closed := true,
                    exhausted := false, putters := [], getters := [] }
                = (x :: (drainFuel (y :: rest2).length
                      { maxsize := 0, items := y :: rest2,
                        unfinished := (y :: rest2).length, closed := true,
                        exhausted := false, putters := [], getters := [] }).1,
                   (drainFuel (y :: rest2).length
                      { maxsize := 0, items := y :: rest2,
                        unfinished := (y :: rest2).length, closed := true,
                        exhausted := false, putters := [], getters := [] }).2) := rfl
          rw [step, h]

/-- C1: for every finite sequence `S` put into a `CloseableQueue` that is
then closed, consuming through the iteration protocol (`get` followed by
`task_done`, as `__anext__` does) yields exactly the items of `S` in the
same order, and the `get` attempted immediately after the last real item
fails with `QueueExhausted`. -/
theorem claim_C1_fifo_roundtrip (α : Type) (S : List α) :
    ∃ q2 qf : CloseableQueue α,
      feedAll S = .ok q2 ∧
      drainFuel S.length q2 = (S, qf) ∧
      getCall qf = .failed PyErr.exhaustedErr := by
  have henq := enqueueAll_open S ([] : List α) 0
  simp only [List.nil_append, Nat.zero_add] at henq
  cases S with
  | nil =>
      refine ⟨{ maxsize := 0, items := [], unfinished := 0, closed := true,
                exhausted := true, putters := [], getters := [] },
              { maxsize := 0, items := [], unfinished := 0, closed := true,
                exhausted := true, putters := [], getters := [] }, ?_, ?_, ?_⟩
      · rfl
      · rfl
      · rfl
  | cons x rest =>
      refine ⟨{ maxsize := 0, items := x :: rest, unfinished := (x :: rest).length,
                closed := true, exhausted := false, putters := [], getters := [] },
              { maxsize := 0, items := [], unfinished := 0, closed := true,
                exhausted := true, putters := [], getters := [] }, ?_, ?_, ?_⟩
      · show (do
            let q ← enqueueAll (emptyQueue α 0) (x :: rest)
            close q) = _
        rw [show emptyQueue α 0
              = { maxsize := 0, items := [], unfinished := 0, closed := false,
                  exhausted := false, putters := [], getters := [] } from rfl, henq]
        rfl
      · exact drainFuel_closed (x :: rest) (List.cons_ne_nil x rest)
      · rfl

/-- Reduction of an `Except` bind on a success value, used to evaluate
the do-blocks of the embedded operations. -/
@[simp]
theorem exceptOkBind {ε σ τ : Type} (a : σ) (f : σ → Except ε τ) :
    (do
      let x ← (Except.ok a : Except ε σ)
      f x) = f a := rfl

/-- Reduction of an `Except` bind on a raised error. -/
@[simp]
theorem exceptErrorBind {ε σ τ : Type} (e : ε) (f : σ → Except ε τ) :
    (do
      let x ← (Except.error e : Except ε σ)
      f x) = Except.error e := rfl

/-- Resolving an all-pending putter list succeeds and marks every waiter
as resolved with `QueueClosed`. -/
theorem resolvePutters_pending {α : Type} :
    ∀ ps : List (FutState × α), (∀ p ∈ ps, p.1 = FutState.pending) →
      resolvePutters ps
        = .ok (ps.map fun p => (FutState.doneClosedExc, p.2)) := by
  intro ps
  induction ps with
  | nil => intro _; rfl
  | cons p rest ih =>
      intro hall
      obtain ⟨s, x⟩ := p
      have hs : s = FutState.pending := hall (s, x) (List.mem_cons_self _ _)
      subst hs
      have h := ih fun p hp => hall p (List.mem_cons_of_mem _ hp)
      simp [resolvePutters, h, exceptOkBind]

/-- One `task_done` on a closed, unexhausted queue whose counter stays
positive just decrements the counter. -/
theorem task_done_step {α : Type} (q : CloseableQueue α)
    (_hc : q.closed = true) (hgt : 1 < q.unfinished) :
    task_done q = .ok { q with unfinished := q.unfinished - 1 } := by
  unfold task_done
  rw [if_neg (by omega)]
  rw [if_neg ?hfin]
  case hfin =>
    intro hand
    have h2 : finishedSet { q with unfinished := q.unfinished - 1 } = true := hand.2
    simp only [finishedSet, beq_iff_eq] at h2
    omega

/-- One `task_done` on a closed, unexhausted queue whose counter is
exactly 1 performs the exhaustion transition. -/
theorem task_done_last {α : Type} (q : CloseableQueue α)
    (hc : q.closed = true) (hu : q.unfinished = 1) :
    task_done q = .ok (setExhausted { q with unfinished := 0 }) := by
  unfold task_done
  rw [if_neg (by omega)]
  rw [if_pos ?hfin]
  case hfin =>
    refine ⟨hc, ?_⟩
    simp only [finishedSet, beq_iff_eq]
    omega
  rw [show q.unfinished - 1 = 0 by omega]

/-- Acknowledging fewer times than the in-flight count only lowers the
counter; the queue does not become exhausted on the way. -/
theorem taskDoneIter_partial {α : Type} :
    ∀ (k : Nat) (q : CloseableQueue α), q.closed = true →
      k < q.unfinished →
      taskDoneIter k q = .ok { q with unfinished := q.unfinished - k } := by
  intro k
  induction k with
  | zero => intro q _ _; simp [taskDoneIter]
  | succ m ih =>
      intro q hc hk
      have htd := task_done_step q hc (by omega)
      have hrec := ih { q with unfinished := q.unfinished - 1 } hc
        (show m < q.unfinished - 1 by omega)
      have step : taskDoneIter (m + 1) q
          = taskDoneIter m { q with unfinished := q.unfinished - 1 } := by
        simp only [taskDoneIter, htd, exceptOkBind]
      rw [step, hrec]
      have harith : q.unfinished - 1 - m = q.unfinished - (m + 1) := by omega
      rw [harith]

/-- Acknowledging exactly the in-flight count of a closed queue ends with
the exhaustion transition on the last acknowledgment. -/
theorem taskDoneIter_exact {α : Type} :
    ∀ (n : Nat) (q : CloseableQueue α), q.closed = true →
      q.unfinished = n → 0 < n →
      taskDoneIter n q = .ok (setExhausted { q with unfinished := 0 }) := by
  intro n
  induction n with
  | zero => intro q _ _ h; omega
  | succ m ih =>
      intro q hc hu _
      cases Nat.eq_zero_or_pos m with
      | inl hm =>
          subst hm
          have htd := task_done_last q hc hu
          simp only [taskDoneIter, htd, exceptOkBind]
      | inr hm =>
          have htd := task_done_step q hc (by omega)
          have hrec := ih { q with unfinished := q.unfinished - 1 } hc
            (show q.unfinished - 1 = m by omega) hm
          have step : taskDoneIter (m + 1) q
              = taskDoneIter m { q with unfinished := q.unfinished - 1 } := by
            simp only [taskDoneIter, htd, exceptOkBind]
          rw [step, hrec]

/-- C2: exhaustion triggers exactly when the queue is closed and the
in-flight counter is zero, checked at both moments: `close` on a queue
with zero in-flight items sets `exhausted` immediately, while `close` on
a queue with `N > 0` unacknowledged items leaves `exhausted` unset and
defers it until exactly `N` `task_done` acknowledgments: after any `k < N`
of them the queue is still not exhausted, after the `N`-th it is. -/
theorem claim_C2_exhaustion_trigger (α : Type) :
    (∀ q : CloseableQueue α, (∀ p ∈ q.putters, p.1 = FutState.pending) →
       q.unfinished = 0 →
       ∃ q', close q = .ok q' ∧ q'.exhausted = true) ∧
    (∀ q : CloseableQueue α, (∀ p ∈ q.putters, p.1 = FutState.pending) →
       q.exhausted = false → 0 < q.unfinished →
       ∃ q', close q = .ok q' ∧ q'.exhausted = false ∧
         q'.unfinished = q.unfinished ∧
         (∀ k < q.unfinished, ∃ qk, taskDoneIter k q' = .ok qk ∧
            qk.exhausted = false) ∧
         (∃ qN, taskDoneIter q.unfinished q' = .ok qN ∧
            qN.exhausted = true)) := by
  constructor
  · intro q hps hu
    have hrp := resolvePutters_pending q.putters hps
    refine ⟨setExhausted
        { q with closed := true,
                 putters := q.putters.map (fun p => (FutState.doneClosedExc, p.2)) },
        ?_, rfl⟩
    simp [close, hrp, finishedSet, hu]
  · intro q hps he hu
    have hrp := resolvePutters_pending q.putters hps
    refine ⟨{ q with closed := true, putters := q.putters.map (fun p => (FutState.doneClosedExc, p.2)) }, ?_, he, rfl, ?_, ?_⟩
    · simp only [close, hrp, exceptOkBind]
      rw [if_neg (by simp [finishedSet]; omega)]
    · intro k hk
      refine ⟨_, taskDoneIter_partial k _ rfl (by simpa using hk), ?_⟩
      exact he
    · refine ⟨_, taskDoneIter_exact q.unfinished _ rfl (by simp) hu, ?_⟩
      rfl

/-- Witness for `claim_C2_exhaustion_trigger`: a queue with zero in-flight
items becomes exhausted at `close`, and a queue closed with 2 in-flight
items becomes exhausted only at the second acknowledgment. -/
theorem claim_C2_exhaustion_trigger_witness :
    (∃ q', close (emptyQueue Nat 0) = .ok q' ∧ q'.exhausted = true) ∧
    (∃ q', close { emptyQueue Nat 0 with unfinished := 2 } = .ok q' ∧
       q'.exhausted = false ∧ q'.unfinished = 2 ∧
       (∀ k < 2, ∃ qk, taskDoneIter k q' = .ok qk ∧ qk.exhausted = false) ∧
       (∃ qN, taskDoneIter 2 q' = .ok qN ∧ qN.exhausted = true)) := by
  refine ⟨(claim_C2_exhaustion_trigger Nat).1 (emptyQueue Nat 0) (by simp [emptyQueue]) rfl, ?_⟩
  have h := (claim_C2_exhaustion_trigger Nat).2
    { emptyQueue Nat 0 with unfinished := 2 } (by simp [emptyQueue]) rfl (by decide)
  simpa using h

/-- No queue operation ever resets the `_exhausted` event (the source
never calls `_exhausted.clear()`): once exhausted, always exhausted. -/
theorem applyOp_exhausted_mono {α : Type} (q : CloseableQueue α) (op : QOp α)
    (h : q.exhausted = true) : (applyOp q op).exhausted = true := by
  cases op with
  | opPutNowait x =>
      by_cases hc : q.closed = true
      · simp [applyOp, put_nowait, hc, h]
      · by_cases hf : isFull q = true
        · simp [applyOp, put_nowait, hc, hf, h]
        · simp [applyOp, put_nowait, hc, hf, h]
  | opGetNowait =>
      simp [applyOp, get_nowait, h]
  | opTaskDone =>
      by_cases hu : q.unfinished = 0
      · simp [applyOp, task_done, hu, h]
      · by_cases hc : q.closed = true
        · by_cases hz : q.unfinished - 1 = 0
          · simp [applyOp, task_done, hu, hc, hz, finishedSet, setExhausted, h]
          · simp [applyOp, task_done, hu, hc, hz, finishedSet, setExhausted, h]
        · simp [applyOp, task_done, hu, hc, finishedSet, h]
  | opClose =>
      cases hrp : resolvePutters q.putters with
      | error e => simp [applyOp, close, hrp, h]
      | ok ps =>
          by_cases hu : q.unfinished = 0
          · simp [applyOp, close, hrp, hu, finishedSet, setExhausted, h]
          · simp [applyOp, close, hrp, hu, finishedSet, setExhausted, h]

/-- Exhaustion is monotone across any sequence of queue operations. -/
theorem applyOps_exhausted_mono {α : Type} (ops : List (QOp α)) :
    ∀ q : CloseableQueue α, q.exhausted = true →
      (applyOps q ops).exhausted = true := by
  induction ops with
  | nil => intro q h; exact h
  | cons op rest ih =>
      intro q h
      exact ih (applyOp q op) (applyOp_exhausted_mono q op h)

/-- C3: when the queue transitions to exhausted, every suspended `get`
caller's waiter is woken (no waiter is left pending), and at any later
point — after any further sequence of queue operations — the
`CancelledError` raised into the suspended `get` is reinterpreted as
`QueueExhausted`, never surfaced as a raw cancellation. -/
theorem claim_C3_suspended_get_sees_exhausted (α : Type)
    (q : CloseableQueue α) (ops : List (QOp α)) :
    (∀ g ∈ (setExhausted q).getters, g ≠ FutState.pending) ∧
    (setExhausted q).getters = q.getters.map cancelFut ∧
    cancelFut FutState.pending = FutState.cancelledFut ∧
    getResumeOnCancel (applyOps (setExhausted q) ops) = PyErr.exhaustedErr := by
  refine ⟨?_, rfl, rfl, ?_⟩
  · intro g hg
    simp only [setExhausted, List.mem_map] at hg
    obtain ⟨g0, _, rfl⟩ := hg
    cases g0 <;> simp [cancelFut]
  · have hmono := applyOps_exhausted_mono ops (setExhausted q) rfl
    simp [getResumeOnCancel, hmono]

/-- Witness for `claim_C3_suspended_get_sees_exhausted`: on a concrete
queue with one pending getter, exhaustion cancels the getter and its
resumption — even after a further `put_nowait`/`task_done` pair —
observes `QueueExhausted`. -/
theorem claim_C3_suspended_get_sees_exhausted_witness :
    (∀ g ∈ (setExhausted { emptyQueue Nat 0 with getters := [FutState.pending] }).getters,
        g ≠ FutState.pending) ∧
    getResumeOnCancel
        (applyOps (setExhausted { emptyQueue Nat 0 with getters := [FutState.pending] })
          [QOp.opPutNowait 4, QOp.opTaskDone])
      = PyErr.exhaustedErr := by
  have h := claim_C3_suspended_get_sees_exhausted Nat
    { emptyQueue Nat 0 with getters := [FutState.pending] }
    [QOp.opPutNowait 4, QOp.opTaskDone]
  exact ⟨h.1, h.2.2.2⟩

/-- C4: every `put` and `put_nowait` attempted after `close` fails with
`QueueClosed` regardless of free capacity, and every `put` suspended at
the moment `close` is called is individually resolved: its waiter is set
to the `QueueClosed` exception and its resumption raises `QueueClosed`
to the caller — no waiting producer is silently dropped. -/
theorem claim_C4_put_after_close (α : Type) :
    (∀ (q : CloseableQueue α) (x : α), q.closed = true →
       putCall q x = .failed PyErr.closedErr ∧
       put_nowait q x = .error PyErr.closedErr) ∧
    (∀ q : CloseableQueue α, (∀ p ∈ q.putters, p.1 = FutState.pending) →
       ∃ q', close q = .ok q' ∧
         q'.putters = q.putters.map (fun p => (FutState.doneClosedExc, p.2)) ∧
         ∀ p ∈ q'.putters, putterResume p.1 = some PyErr.closedErr) := by
  constructor
  · intro q x hc
    exact ⟨by simp [putCall, hc], by simp [put_nowait, hc]⟩
  · intro q hps
    have hrp := resolvePutters_pending q.putters hps
    by_cases hu : q.unfinished = 0
    · refine ⟨setExhausted { q with closed := true, putters := q.putters.map (fun p => (FutState.doneClosedExc, p.2)) }, ?_, rfl, ?_⟩
      · simp [close, hrp, finishedSet, hu]
      · intro p hp
        simp only [setExhausted, List.mem_map] at hp
        obtain ⟨p0, _, rfl⟩ := hp
        rfl
    · refine ⟨{ q with closed := true, putters := q.putters.map (fun p => (FutState.doneClosedExc, p.2)) }, ?_, rfl, ?_⟩
      · simp only [close, hrp, exceptOkBind]
        rw [if_neg (by simp [finishedSet, hu])]
      · intro p hp
        simp only [List.mem_map] at hp
        obtain ⟨p0, _, rfl⟩ := hp
        rfl

/-- Witness for `claim_C4_put_after_close`: putting 7 into a concrete
closed queue with free capacity fails with `QueueClosed`, and closing a
queue with one suspended producer resolves that producer with
`QueueClosed`. -/
theorem claim_C4_put_after_close_witness :
    (putCall { emptyQueue Nat 3 with closed := true } 7 = .failed PyErr.closedErr ∧
     put_nowait { emptyQueue Nat 3 with closed := true } 7 = .error PyErr.closedErr) ∧
    (∃ q', close { emptyQueue Nat 1 with items := [0], unfinished := 1, putters := [(FutState.pending, 9)] } = .ok q' ∧
       q'.putters = [(FutState.doneClosedExc, 9)] ∧
       ∀ p ∈ q'.putters, putterResume p.1 = some PyErr.closedErr) := by
  refine ⟨(claim_C4_put_after_close Nat).1 _ 7 rfl, ?_⟩
  have h := (claim_C4_put_after_close Nat).2
    { emptyQueue Nat 1 with items := [0], unfinished := 1, putters := [(FutState.pending, 9)] }
    (by simp)
  simpa using h

/-- C5 counterexample: `close` is not idempotent on every state with
suspended producers.  A queue with one suspended `put` waiter: the first
`close` resolves the waiter with `QueueClosed` but the waiter stays in
`_putters` until its coroutine resumes, so a second `close` issued before
that resumption calls `set_exception` on an already-done future and
raises `asyncio.InvalidStateError`. -/
theorem claim_C5_counterexample :
    close { maxsize := 1, items := [0], unfinished := 1, closed := false,
            exhausted := false, putters := [(FutState.pending, 5)],
            getters := [] }
      = .ok { maxsize := 1, items := [0], unfinished := 1, closed := true,
              exhausted := false, putters := [(FutState.doneClosedExc, 5)],
              getters := [] } ∧
    close { maxsize := 1, items := [0], unfinished := 1, closed := true,
            exhausted := false, putters := [(FutState.doneClosedExc, 5)],
            getters := [] }
      = .error PyErr.invalidState := ⟨rfl, rfl⟩

/-- C5 amended: re-invoking `close` on an already-closed queue completes
without error and changes nothing, provided every producer waiter
resolved by the first close has since resumed (the putter list is empty);
the consistency condition on an exhausted state (exhausted flag set as
soon as the counter is zero, getter waiters already cancelled) is exactly
what the first close or the exhausting acknowledgment established. -/
theorem claim_C5_close_idempotent_after_resume (α : Type)
    (q : CloseableQueue α) (hc : q.closed = true) (hp : q.putters = [])
    (hfin : q.unfinished = 0 →
      q.exhausted = true ∧ q.getters.map cancelFut = q.getters) :
    close q = .ok q := by
  obtain ⟨ms, it, uf, cl, ex, ps, gs⟩ := q
  simp only at hc hp hfin
  subst hc
  subst hp
  by_cases hu : uf = 0
  · obtain ⟨hex, hgs⟩ := hfin hu
    subst hex
    simp [close, resolvePutters, finishedSet, hu, setExhausted, hgs]
  · simp [close, resolvePutters, finishedSet, hu]

/-- Witness for `claim_C5_close_idempotent_after_resume`: a second
`close` on a concrete closed-and-exhausted queue with no lingering
putter waiters returns it unchanged. -/
theorem claim_C5_close_idempotent_after_resume_witness :
    close { emptyQueue Nat 0 with closed := true, exhausted := true }
      = .ok { emptyQueue Nat 0 with closed := true, exhausted := true } :=
  claim_C5_close_idempotent_after_resume Nat
    { emptyQueue Nat 0 with closed := true, exhausted := true }
    rfl rfl (fun _ => ⟨rfl, rfl⟩)

/-- The batching loop of `iter_to_aiter` preserves the item sequence for
every slicing of the input. -/
theorem iterToKAiter_id {α : Type} :
    ∀ (sched : List Nat) (xs : List α), iterToKAiter sched xs = xs := by
  intro sched
  induction sched with
  | nil => intro xs; rfl
  | cons n rest ih =>
      intro xs
      simp only [iterToKAiter]
      split
      · rfl
      · rw [ih (xs.drop (n + 1)), List.take_append_drop]

/-- C6: the batching helper `iter_to_aiter` itself yields the identical
items in the identical order, and the async-iterable branch of
`ensure_async_iterator` is the identity on the item sequence — but the
synchronous-iterable branch (the one `Stream.__init__` takes for a plain
synchronous sequence) raises `TypeError` on every input, because the
effective `ensure_async_iterator` (utils.py line 182) calls
`iter_to_aiter(iterable, to_thread=to_thread)` (line 199) and
`iter_to_aiter` has no `to_thread` parameter. -/
theorem claim_C6_adapter_sync_branch_type_error :
    (∀ (α : Type) (sched : List Nat) (xs : List α),
        iterToKAiter sched xs = xs) ∧
    (∀ (α : Type) (xs : List α) (to_thread : Bool) (sched : List Nat),
        ensure_async_iterator (MaybeAsyncIterable.asyncIt xs) to_thread sched
          = .ok xs) ∧
    (∀ (α : Type) (xs : List α) (to_thread : Bool) (sched : List Nat),
        ensure_async_iterator (MaybeAsyncIterable.syncIt xs) to_thread sched
          = .error PyErr.typeError) ∧
    ensure_async_iterator (MaybeAsyncIterable.syncIt [1, 2, 3]) true []
      = .error PyErr.typeError := by
  refine ⟨fun α => iterToKAiter_id, fun α xs t sched => rfl, ?_, rfl⟩
  intro α xs t sched
  rfl

/-- C7: `_aflatmap` is input-major with no interleaving: its nested loop
emits, for each upstream item in upstream order, every item of that
item's expansion in full before anything from the next upstream item —
it equals the concatenation of per-item expansions — and
`flatMap(x → [x,x])` over `[1,2]` yields `[1,1,2,2]`. -/
theorem claim_C7_aflatmap_input_major :
    (∀ (α β : Type) (fn : α → List β) (xs : List α),
        aflatmapGen fn xs = flatMapSpecOrder fn xs) ∧
    aflatmapGen (fun x : Nat => [x, x]) [1, 2] = [1, 1, 2, 2] ∧
    (∃ q2 qf : CloseableQueue Nat,
        feedAll (aflatmapGen (fun x : Nat => [x, x]) [1, 2]) = .ok q2 ∧
        Stream.gather 4 q2 = ([1, 1, 2, 2], qf)) := by
  refine ⟨?_, rfl, ?_⟩
  · intro α β fn xs
    induction xs with
    | nil => rfl
    | cons x rest ih => simp [aflatmapGen, flatMapSpecOrder, ih]
  · exact ⟨_, _, rfl, rfl⟩

/-- C10: every transform operator (`amap`, `afilter`, `aflatmap`,
`flatten`) constructs its child `Stream` with `start` set to whether the
parent has started, so the child's Feeder is spawned at construction iff
the parent stream was already started; a chain built from an unstarted
stream stays entirely unstarted. -/
theorem claim_C10_xform_start_propagation :
    (∀ p : StreamCtl,
        Stream.amap p = Stream.init p.started ∧
        Stream.afilter p = Stream.init p.started ∧
        Stream.aflatmap p = Stream.init p.started ∧
        Stream.flatten p = Stream.init p.started) ∧
    (∀ (p : StreamCtl) (op : XformOp),
        (applyXform p op).started = p.started ∧
        (applyXform p op).feederSpawned = p.started) ∧
    (∀ ops : List XformOp,
        (ops.foldl applyXform (Stream.init false)).started = false ∧
        (ops.foldl applyXform (Stream.init false)).feederSpawned = false) := by
  have hinit : ∀ b : Bool, (Stream.init b).started = b ∧ (Stream.init b).feederSpawned = b := by
    intro b
    cases b <;> simp [Stream.init, Stream.start]
  have hop : ∀ (p : StreamCtl) (op : XformOp),
      applyXform p op = Stream.init p.started := by
    intro p op
    cases op <;> rfl
  refine ⟨fun p => ⟨rfl, rfl, rfl, rfl⟩, ?_, ?_⟩
  · intro p op
    rw [hop]
    exact hinit p.started
  · have hchain : ∀ ops : List XformOp,
        ops.foldl applyXform (Stream.init false) = Stream.init false := by
      intro ops
      induction ops with
      | nil => rfl
      | cons op rest ih =>
          rw [List.foldl_cons, hop, (hinit false).1, ih]
    intro ops
    rw [hchain ops]
    exact hinit false

/-- Feeding a prefix of item events into an open unbounded queue with no
waiters appends the items and bumps the in-flight counter. -/
theorem feed_items_prefix {α : Type} :
    ∀ (xs I : List α) (n : Nat) (evs : List (UpEvent α)),
      feed { maxsize := 0, items := I, unfinished := n, closed := false,
             exhausted := false, putters := [], getters := [] }
          (xs.map UpEvent.item ++ evs)
        = feed { maxsize := 0, items := I ++ xs, unfinished := n + xs.length,
                 closed := false, exhausted := false, putters := [],
                 getters := [] } evs := by
  intro xs
  induction xs with
  | nil => intro I n evs; simp
  | cons x rest ih =>
      intro I n evs
      have h := ih (I ++ [x]) (n + 1) evs
      have harith : n + 1 + rest.length = n + (rest.length + 1) := by omega
      rw [harith] at h
      simp only [List.append_assoc, List.singleton_append] at h
      simp only [List.map_cons, List.cons_append, List.length_cons]
      exact h

/-- C8: the Feeder closes its owned queue exactly when the upstream
signals its own end — running `_feed` over a source that yields `xs` and
then ends leaves the queue closed and holding `xs` — while an exception
raised while pulling from the upstream kills the Feeder with the queue
still open (not closed), with only the items before the error pushed, and
is not retried or recovered: the events after the error are irrelevant to
the outcome. -/
theorem claim_C8_feeder_close_policy (α : Type) :
    (∀ xs : List α, ∃ q' : CloseableQueue α,
        feed (emptyQueue α 0) (xs.map UpEvent.item) = .completed q' ∧
        q'.closed = true ∧ q'.items = xs) ∧
    (∀ xs : List α, ∃ q' : CloseableQueue α,
        q'.closed = false ∧ q'.items = xs ∧
        ∀ rest : List (UpEvent α),
          feed (emptyQueue α 0) (xs.map UpEvent.item ++ UpEvent.raiseErr :: rest)
            = .crashed q') := by
  constructor
  · intro xs
    cases xs with
    | nil =>
        exact ⟨{ maxsize := 0, items := [], unfinished := 0, closed := true,
                 exhausted := true, putters := [], getters := [] },
               rfl, rfl, rfl⟩
    | cons x rest =>
        have h := feed_items_prefix (x :: rest) [] 0 []
        simp only [List.append_nil, List.nil_append, Nat.zero_add] at h
        refine ⟨{ maxsize := 0, items := x :: rest,
                  unfinished := (x :: rest).length, closed := true,
                  exhausted := false, putters := [], getters := [] },
                ?_, rfl, rfl⟩
        rw [show emptyQueue α 0
              = { maxsize := 0, items := [], unfinished := 0, closed := false,
                  exhausted := false, putters := [], getters := [] } from rfl, h]
        rfl
  · intro xs
    refine ⟨{ maxsize := 0, items := xs, unfinished := xs.length,
              closed := false, exhausted := false, putters := [],
              getters := [] }, rfl, rfl, ?_⟩
    intro rest
    have h := feed_items_prefix xs [] 0 (UpEvent.raiseErr :: rest)
    simp only [List.nil_append, Nat.zero_add] at h
    rw [show emptyQueue α 0
          = { maxsize := 0, items := [], unfinished := 0, closed := false,
              exhausted := false, putters := [], getters := [] } from rfl, h]
    rfl

/-- Both drain loops are the same loop: `Stream.gather` is the list
comprehension over `Stream.__anext__`, which is `__anext__` on the owned
queue. -/
theorem streamGather_drain {α : Type} :
    ∀ (fuel : Nat) (q : CloseableQueue α),
      Stream.gather fuel q = drainFuel fuel q := by
  intro fuel
  induction fuel with
  | zero => intro q; rfl
  | succ n ih =>
      intro q
      simp only [Stream.gather, drainFuel, Stream.anextQ]
      cases anext q <;> simp [ih]

/-- Gathering from an exhausted queue yields the empty list and leaves
the queue untouched, for any fuel. -/
theorem gather_exhausted {α : Type} (q : CloseableQueue α)
    (h : q.exhausted = true) :
    ∀ fuel, Stream.gather fuel q = ([], q) := by
  intro fuel
  cases fuel with
  | zero => rfl
  | succ n =>
      have ha : anext q = AnextResult.stopIteration := by
        simp [anext, getCall, h]
      simp [Stream.gather, Stream.anextQ, ha]

/-- C9: `gather()` on a stream whose feeder pushed the terminating
sequence `S` and closed the queue returns all of `S` in arrival order;
invoking `gather()` again on the now-exhausted stream returns `[]` (and
`acollect` applied afterwards returns the aggregate of `[]`), via a clean
`StopAsyncIteration`, not an error. -/
theorem claim_C9_gather_idempotent_on_exhausted (α : Type) (S : List α) :
    ∃ q2 qf : CloseableQueue α,
      feedAll S = .ok q2 ∧
      Stream.gather S.length q2 = (S, qf) ∧
      (∀ fuel, Stream.gather fuel qf = ([], qf)) ∧
      (∀ (β : Type) (fn : List α → β) (fuel : Nat),
          (Stream.acollect fn fuel qf).1 = fn []) ∧
      Stream.anextQ qf = AnextResult.stopIteration := by
  have hqf : ∀ fuel, Stream.gather fuel
      { maxsize := 0, items := ([] : List α), unfinished := 0, closed := true,
        exhausted := true, putters := [], getters := [] }
      = ([], { maxsize := 0, items := ([] : List α), unfinished := 0,
               closed := true, exhausted := true, putters := [],
               getters := [] }) :=
    gather_exhausted _ rfl
  cases S with
  | nil =>
      refine ⟨{ maxsize := 0, items := [], unfinished := 0, closed := true,
                exhausted := true, putters := [], getters := [] },
              { maxsize := 0, items := [], unfinished := 0, closed := true,
                exhausted := true, putters := [], getters := [] },
              rfl, rfl, hqf, ?_, rfl⟩
      intro β fn fuel
      simp [Stream.acollect, hqf fuel]
  | cons x rest =>
      have henq := enqueueAll_open (x :: rest) ([] : List α) 0
      simp only [List.nil_append, Nat.zero_add] at henq
      refine ⟨{ maxsize := 0, items := x :: rest,
                unfinished := (x :: rest).length, closed := true,
                exhausted := false, putters := [], getters := [] },
              { maxsize := 0, items := [], unfinished := 0, closed := true,
                exhausted := true, putters := [], getters := [] },
              ?_, ?_, hqf, ?_, rfl⟩
      · show (do
            let q ← enqueueAll (emptyQueue α 0) (x :: rest)
            close q) = _
        rw [show emptyQueue α 0
              = { maxsize := 0, items := [], unfinished := 0, closed := false,
                  exhausted := false, putters := [], getters := [] } from rfl, henq]
        rfl
      · rw [streamGather_drain]
        exact drainFuel_closed (x :: rest) (List.cons_ne_nil x rest)
      · intro β fn fuel
        simp [Stream.acollect, hqf fuel]

end AStream
